import Mathlib

/-!
Verification of the probe-rs debug/flash engine against its specification.

The definitions below are a shallow embedding of the Rust sources:
* `src/probe-rs/src/probe/jlink/arm.rs` (SWD transfer engine),
* `src/probe-rs/src/flashing/flasher.rs` (flash programming engine),
* `src/probe-rs/src/architecture/arm/core/armv6m.rs` (Cortex-M core driver),
* `src/probe-rs/src/architecture/arm/core/armv7a.rs` (Cortex-A core driver).

Machine integers (`u32`, `usize`) are embedded as `Nat`, with explicit
`% 2 ^ 32` masking where the code relies on wrapping or field extraction.
Fallible Rust functions (`Result`) become `Except`; a Rust `panic!` or a
failed `assert!` is modelled as `Option.none` or a dedicated outcome
constructor, as noted at each definition.
-/

set_option autoImplicit false

namespace ProbeRs

/-! ## Bitfield helpers

The Rust code uses the `bitfield` crate: a setter for a field at bit range
`[lo + width - 1 : lo]` replaces those bits of the register with the (masked)
new value; a getter extracts them. -/

/-- Replace the `width`-bit field at bit offset `lo` of `v` by `x`
(masked to `width` bits), leaving all other bits unchanged. -/
def setField (v lo width x : Nat) : Nat :=
  v % 2 ^ lo + x % 2 ^ width * 2 ^ lo + v / 2 ^ (lo + width) * 2 ^ (lo + width)

/-- Extract the `width`-bit field at bit offset `lo` of `v`. -/
def getField (v lo width : Nat) : Nat :=
  v / 2 ^ lo % 2 ^ width

/-! ## SWD transfer engine (`src/probe-rs/src/probe/jlink/arm.rs`)

Data model of a DAP transfer, mirroring `DapTransfer` and its helper
predicates, plus the `SwdSettings` configuration record. -/

/-- `PortType`: which of the two ADI register spaces a transfer addresses. -/
inductive PortType
  | debugPort
  | accessPort
deriving DecidableEq, Repr

/-- `TransferDirection` of a DAP transfer. -/
inductive TransferDirection
  | read
  | write
deriving DecidableEq, Repr

/-- `DapError` variants used by the jlink SWD engine (the defining module is
not among the given source files; the constructors are those matched on in
`arm.rs`). -/
inductive DapError
  | waitResponse
  | faultResponse
  | noAcknowledge
  | incorrectParity
deriving DecidableEq, Repr

/-- `TransferStatus` of a DAP transfer. -/
inductive TransferStatus
  | pending
  | ok
  | failed (e : DapError)
deriving DecidableEq, Repr

/-- `DapTransfer`: the fundamental unit processed by the engine. -/
structure DapTransfer where
  port : PortType
  direction : TransferDirection
  address : Nat
  value : Nat
  status : TransferStatus
  idleCyclesAfter : Nat
deriving DecidableEq, Repr

/-- Modelled from the spec: DP register addresses per the ADI standard
(the `dp` module of the repository is not among the given source files).
DPIDR and ABORT share address 0 (read and write views); CTRL/STAT is 4;
RDBUFF is 0xC. -/
def DPIDR.ADDRESS : Nat := 0x0

/-- Modelled from the spec: the DP ABORT register address. -/
def Abort.ADDRESS : Nat := 0x0

/-- Modelled from the spec: the DP CTRL/STAT register address. -/
def Ctrl.ADDRESS : Nat := 0x4

/-- Modelled from the spec: the DP RDBUFF register address. -/
def RdBuff.ADDRESS : Nat := 0xC

/-- `DapTransfer::read`. -/
def DapTransfer.read (port : PortType) (address : Nat) : DapTransfer :=
  ⟨port, .read, address, 0, .pending, 0⟩

/-- `DapTransfer::write`. -/
def DapTransfer.write (port : PortType) (address value : Nat) : DapTransfer :=
  ⟨port, .write, address, value, .pending, 0⟩

/-- `DapTransfer::is_ap_read`. -/
def DapTransfer.isApRead (t : DapTransfer) : Bool :=
  t.port == .accessPort && t.direction == .read

/-- `DapTransfer::is_write`. -/
def DapTransfer.isWrite (t : DapTransfer) : Bool :=
  t.direction == .write

/-- A write to the DP ABORT register (the `abort_write` test in
`perform_transfers`). -/
def DapTransfer.isAbortWrite (t : DapTransfer) : Bool :=
  t.port == .debugPort && t.address == Abort.ADDRESS && t.direction == .write

/-- A read of the DP DPIDR register (the `dpidr_read` test in
`perform_transfers`). -/
def DapTransfer.isDpidrRead (t : DapTransfer) : Bool :=
  t.port == .debugPort && t.address == DPIDR.ADDRESS && t.direction == .read

/-- A read of the DP CTRL/STAT register (the `ctrl_stat_read` test in
`perform_transfers`). -/
def DapTransfer.isCtrlStatRead (t : DapTransfer) : Bool :=
  t.port == .debugPort && t.address == Ctrl.ADDRESS && t.direction == .read

/-- The projection of a transfer that identifies it on the wire:
port, direction and address (ignoring the mutable value, status and
idle-cycle bookkeeping). -/
def DapTransfer.key (t : DapTransfer) : PortType × TransferDirection × Nat :=
  (t.port, t.direction, t.address)

/-- `SwdSettings` (field names as in the source). -/
structure SwdSettings where
  numIdleCyclesBetweenWrites : Nat
  numRetriesAfterWait : Nat
  maxRetryIdleCyclesAfterWait : Nat
  idleCyclesBeforeWriteVerify : Nat
  idleCyclesAfterTransfer : Nat
deriving DecidableEq, Repr

/-- `SwdSettings::default`. -/
def SwdSettings.default : SwdSettings :=
  { numIdleCyclesBetweenWrites := 2
    numRetriesAfterWait := 1000
    maxRetryIdleCyclesAfterWait := 128
    idleCyclesBeforeWriteVerify := 8
    idleCyclesAfterTransfer := 8 }

/-- `final_transfers.last_mut().idle_cycles_after += n` : add `n` idle cycles
to the last transfer of the batch (no-op on an empty batch, mirroring the
`if let Some(..)` in the source). -/
def addIdleToLast (l : List DapTransfer) (n : Nat) : List DapTransfer :=
  match l with
  | [] => []
  | [t] => [{ t with idleCyclesAfter := t.idleCyclesAfter + n }]
  | t :: ts => t :: addIdleToLast ts n

/-- `final_transfers.last_mut().idle_cycles_after = n` : overwrite the idle
cycles of the last transfer of the batch. -/
def setIdleOnLast (l : List DapTransfer) (n : Nat) : List DapTransfer :=
  match l with
  | [] => []
  | [t] => [{ t with idleCyclesAfter := n }]
  | t :: ts => t :: setIdleOnLast ts n

/-- The loop state of `perform_transfers`: the physical batch built so far,
the result indices recorded for each logical transfer, the running transfer
count, and the three flags carried across loop iterations. -/
structure ExpandState where
  finalTransfers : List DapTransfer
  resultIndices : List Nat
  numTransfers : Nat
  needApRead : Bool
  bufferedWrite : Bool
  writeResponsePending : Bool
deriving Repr

/-- Push a synthetic `read(DP, RDBUFF)` onto the physical batch
(the extra transfer inserted by `perform_transfers`). -/
def pushRdbuff (s : ExpandState) : ExpandState :=
  { s with
      finalTransfers := s.finalTransfers ++ [DapTransfer.read .debugPort RdBuff.ADDRESS]
      numTransfers := s.numTransfers + 1 }

/-- First insertion of the `perform_transfers` loop body: if the previous
logical transfer was an AP read and the current one is not, insert a
`read(DP, RDBUFF)` to collect the pending AP result. -/
def stepApReadInsert (s : ExpandState) (t : DapTransfer) : ExpandState :=
  if !t.isApRead && s.needApRead then pushRdbuff s else s

/-- Second insertion of the `perform_transfers` loop body: after a buffered
(AP) write, before an ABORT write, DPIDR read or CTRL/STAT read, pad the
previous transfer with `idle_cycles_before_write_verify` idle cycles and
insert a `read(DP, RDBUFF)` that stalls until the write buffer drains. -/
def stepWriteVerifyInsert (settings : SwdSettings) (s : ExpandState) (t : DapTransfer) :
    ExpandState :=
  if s.bufferedWrite && (t.isAbortWrite || t.isDpidrRead || t.isCtrlStatRead) then
    pushRdbuff
      { s with finalTransfers := addIdleToLast s.finalTransfers settings.idleCyclesBeforeWriteVerify }
  else s

/-- Tail of the `perform_transfers` loop body: push the logical transfer
itself, recompute the `need_ap_read` / `buffered_write` /
`write_response_pending` flags from it, record the (SWD) result index, and
set the trailing idle cycles on writes. -/
def stepMain (idleCycles : Nat) (s : ExpandState) (t : DapTransfer) : ExpandState :=
  let needApRead := t.isApRead
  let bufferedWrite := t.port == .accessPort && t.direction == .write
  let writeResponsePending :=
    t.isWrite && !(t.port == .debugPort && t.address == Abort.ADDRESS)
  let pushed := s.finalTransfers ++ [t]
  { finalTransfers := if t.isWrite then setIdleOnLast pushed idleCycles else pushed
    resultIndices := s.resultIndices ++
      [if needApRead || writeResponsePending then s.numTransfers + 1 else s.numTransfers]
    numTransfers := s.numTransfers + 1
    needApRead := needApRead
    bufferedWrite := bufferedWrite
    writeResponsePending := writeResponsePending }

/-- One iteration of the `perform_transfers` loop over the logical batch
(SWD protocol path). -/
def performTransfersStep (settings : SwdSettings) (idleCycles : Nat)
    (s : ExpandState) (t : DapTransfer) : ExpandState :=
  stepMain idleCycles (stepWriteVerifyInsert settings (stepApReadInsert s t) t) t

/-- The code after the `perform_transfers` loop: append a terminating
`read(DP, RDBUFF)` when an AP read is pending or a write response has not
been collected (padding the previous transfer in the latter case), then add
the end-of-batch idle cycles. -/
def performTransfersFinish (settings : SwdSettings) (s : ExpandState) : ExpandState :=
  let s :=
    if s.needApRead || s.writeResponsePending then
      pushRdbuff
        { s with
            finalTransfers :=
              if s.writeResponsePending then
                addIdleToLast s.finalTransfers settings.idleCyclesBeforeWriteVerify
              else s.finalTransfers }
    else s
  if settings.idleCyclesAfterTransfer > 0 then
    { s with finalTransfers := addIdleToLast s.finalTransfers settings.idleCyclesAfterTransfer }
  else s

/-- The loop state at entry of `perform_transfers`. -/
def emptyExpandState : ExpandState :=
  { finalTransfers := []
    resultIndices := []
    numTransfers := 0
    needApRead := false
    bufferedWrite := false
    writeResponsePending := false }

/-- The logical-to-physical batch rewrite of `perform_transfers`
(lines 367-514 of `arm.rs`): builds the physical batch and the result
indices from the logical batch. -/
def expandTransfers (settings : SwdSettings) (idleCycles : Nat)
    (ts : List DapTransfer) : ExpandState :=
  performTransfersFinish settings
    (ts.foldl (performTransfersStep settings idleCycles) emptyExpandState)

/-- `perform_transfers` begins with `assert!(!transfers.is_empty())`:
on an empty batch it panics, modelled here as `none`. Otherwise it returns
the physical batch and the result index of each logical transfer. -/
def performTransfers (settings : SwdSettings) (idleCycles : Nat)
    (ts : List DapTransfer) : Option (List DapTransfer × List Nat) :=
  if ts.isEmpty then none
  else
    let s := expandTransfers settings idleCycles ts
    some (s.finalTransfers, s.resultIndices)

/-- Result handling of `perform_swd_transfers` when every physical transfer
is acknowledged OK: the k-th physical transfer gets status `ok` and (for
reads) the k-th wire value. -/
def executeOk (vals : List Nat) (phys : List DapTransfer) : List DapTransfer :=
  phys.enum.map fun p =>
    { p.2 with
        status := .ok
        value := if p.2.direction == .read then vals.getD p.1 0 else p.2.value }

/-- The result retrieval at the end of `perform_transfers`: logical transfer
`i` takes status (and, for reads, value) from physical position
`result_indices[i]`. -/
def retrieveResults (executed : List DapTransfer) (ts : List DapTransfer)
    (indices : List Nat) : List DapTransfer :=
  (ts.zip indices).map fun p =>
    let r := executed.getD p.2 (DapTransfer.read .debugPort 0)
    { p.1 with
        status := r.status
        value := if p.1.direction == .read then r.value else p.1.value }

/-! ### Spec-side characterization of the batch rewrite (for claim C1)

The claim describes `perform_transfers` as inserting a synthetic
`read(DP, RDBUFF)` at certain positions.  To state this, the physical batch
is decomposed into one segment per logical transfer plus an optional
terminating read; the segment of a logical transfer depends only on that
transfer and its predecessor, mirroring how the loop flags are recomputed
from the previous transfer alone. -/

/-- Value of the `need_ap_read` flag after processing `prev`
(`false` at batch start). -/
def prevApRead : Option DapTransfer → Bool
  | none => false
  | some t => t.isApRead

/-- Value of the `buffered_write` flag after processing `prev`
(`false` at batch start). -/
def prevBufferedWrite : Option DapTransfer → Bool
  | none => false
  | some t => t.port == .accessPort && t.direction == .write

/-- Value of the `write_response_pending` flag after processing `t`: a write
whose status has not been fetched, i.e. any write except one to DP ABORT. -/
def wrpOf (t : DapTransfer) : Bool :=
  t.isWrite && !(t.port == .debugPort && t.address == Abort.ADDRESS)

/-- The wire identity of the synthetic `read(DP, RDBUFF)` transfer. -/
def rdbuffKey : PortType × TransferDirection × Nat :=
  (.debugPort, .read, RdBuff.ADDRESS)

/-- The physical segment contributed by one logical transfer `p.2` whose
predecessor in the logical batch is `p.1`: the inserted RDBUFF reads (if any)
followed by the transfer itself. -/
def segOf (p : Option DapTransfer × DapTransfer) :
    List (PortType × TransferDirection × Nat) :=
  (if !p.2.isApRead && prevApRead p.1 then [rdbuffKey] else []) ++
    (if prevBufferedWrite p.1 &&
        (p.2.isAbortWrite || p.2.isDpidrRead || p.2.isCtrlStatRead) then
      [rdbuffKey]
    else []) ++
    [p.2.key]

/-- The list of segments of a logical batch whose (virtual) predecessor of
the first transfer is `prev`. -/
def segsFrom (prev : Option DapTransfer) (ts : List DapTransfer) :
    List (List (PortType × TransferDirection × Nat)) :=
  ((prev :: ts.map some).zip ts).map segOf

/-- Whether `perform_transfers` appends a terminating `read(DP, RDBUFF)`:
the last transfer was an AP read, or a write whose status has not been
fetched. -/
def endCond (ts : List DapTransfer) : Bool :=
  match ts.getLast? with
  | none => false
  | some t => t.isApRead || wrpOf t

/-- The terminating segment of the physical batch. -/
def endKeys (ts : List DapTransfer) : List (PortType × TransferDirection × Nat) :=
  if endCond ts then [rdbuffKey] else []

/-- The last element of `ts`, or `prev` when `ts` is empty. -/
def lastOr (prev : Option DapTransfer) (ts : List DapTransfer) : Option DapTransfer :=
  match ts.getLast? with
  | none => prev
  | some t => some t

theorem addIdleToLast_map_key (l : List DapTransfer) (n : Nat) :
    (addIdleToLast l n).map DapTransfer.key = l.map DapTransfer.key := by
  induction l with
  | nil => rfl
  | cons t ts ih =>
    cases ts with
    | nil => rfl
    | cons u us => simpa [addIdleToLast] using ih

theorem setIdleOnLast_map_key (l : List DapTransfer) (n : Nat) :
    (setIdleOnLast l n).map DapTransfer.key = l.map DapTransfer.key := by
  induction l with
  | nil => rfl
  | cons t ts ih =>
    cases ts with
    | nil => rfl
    | cons u us => simpa [setIdleOnLast] using ih

theorem segsFrom_cons (prev : Option DapTransfer) (t : DapTransfer)
    (rest : List DapTransfer) :
    segsFrom prev (t :: rest) = segOf (prev, t) :: segsFrom (some t) rest := rfl

theorem performTransfersStep_flags (settings : SwdSettings) (idle : Nat)
    (s : ExpandState) (t : DapTransfer) :
    (performTransfersStep settings idle s t).needApRead = prevApRead (some t) ∧
      (performTransfersStep settings idle s t).bufferedWrite = prevBufferedWrite (some t) ∧
      (performTransfersStep settings idle s t).writeResponsePending = wrpOf t := by
  refine ⟨?_, ?_, ?_⟩ <;>
    simp [performTransfersStep, stepMain, prevApRead, prevBufferedWrite, wrpOf]

theorem performTransfersStep_map_key (settings : SwdSettings) (idle : Nat)
    (s : ExpandState) (t : DapTransfer) (prev : Option DapTransfer)
    (h1 : s.needApRead = prevApRead prev)
    (h2 : s.bufferedWrite = prevBufferedWrite prev) :
    (performTransfersStep settings idle s t).finalTransfers.map DapTransfer.key
      = s.finalTransfers.map DapTransfer.key ++ segOf (prev, t) := by
  unfold performTransfersStep stepApReadInsert stepWriteVerifyInsert stepMain segOf
  by_cases hc1 : (!t.isApRead && s.needApRead) = true <;>
    by_cases hc2 :
      (s.bufferedWrite && (t.isAbortWrite || t.isDpidrRead || t.isCtrlStatRead)) = true <;>
    by_cases hw : t.isWrite = true <;>
      simp [hc1, hc2, hw, ← h1, ← h2, pushRdbuff, setIdleOnLast_map_key,
        addIdleToLast_map_key, DapTransfer.key, DapTransfer.read, rdbuffKey]

theorem foldl_performTransfersStep_spec (settings : SwdSettings) (idle : Nat) :
    ∀ (ts : List DapTransfer) (s : ExpandState) (prev : Option DapTransfer),
      s.needApRead = prevApRead prev →
      s.bufferedWrite = prevBufferedWrite prev →
      ((ts.foldl (performTransfersStep settings idle) s).finalTransfers.map DapTransfer.key
          = s.finalTransfers.map DapTransfer.key ++ (segsFrom prev ts).flatten) ∧
        ((ts.foldl (performTransfersStep settings idle) s).needApRead
          = prevApRead (lastOr prev ts)) ∧
        ((ts.foldl (performTransfersStep settings idle) s).bufferedWrite
          = prevBufferedWrite (lastOr prev ts)) ∧
        ((ts.foldl (performTransfersStep settings idle) s).writeResponsePending
          = match ts.getLast? with
            | none => s.writeResponsePending
            | some t => wrpOf t) := by
  intro ts
  induction ts with
  | nil =>
    intro s prev h1 h2
    simp [segsFrom, lastOr, h1, h2]
  | cons t rest ih =>
    intro s prev h1 h2
    have hstep := performTransfersStep_flags settings idle s t
    have hrec := ih (performTransfersStep settings idle s t) (some t)
      hstep.1 hstep.2.1
    have hkey := performTransfersStep_map_key settings idle s t prev h1 h2
    have hlast : lastOr prev (t :: rest) = lastOr (some t) rest := by
      cases rest <;> simp [lastOr, List.getLast?]
    refine ⟨?_, ?_, ?_, ?_⟩
    · rw [List.foldl_cons, hrec.1, hkey, segsFrom_cons]
      simp
    · rw [List.foldl_cons, hrec.2.1, hlast]
    · rw [List.foldl_cons, hrec.2.2.1, hlast]
    · rw [List.foldl_cons, hrec.2.2.2]
      cases rest with
      | nil => simp [hstep.2.2]
      | cons u us => simp [List.getLast?]

theorem performTransfersFinish_map_key (settings : SwdSettings) (s : ExpandState) :
    (performTransfersFinish settings s).finalTransfers.map DapTransfer.key
      = s.finalTransfers.map DapTransfer.key ++
          (if s.needApRead || s.writeResponsePending then [rdbuffKey] else []) := by
  unfold performTransfersFinish
  by_cases hna : s.needApRead = true <;>
    by_cases hwp : s.writeResponsePending = true <;>
      by_cases hi : settings.idleCyclesAfterTransfer > 0 <;>
        simp [hna, hwp, hi, pushRdbuff, addIdleToLast_map_key, DapTransfer.key,
          DapTransfer.read, rdbuffKey]

theorem segsFrom_get?_succ :
    ∀ (ts : List DapTransfer) (prev : Option DapTransfer) (i : Nat)
      (a b : DapTransfer),
      ts.get? i = some a → ts.get? (i + 1) = some b →
      (segsFrom prev ts).get? (i + 1) = some (segOf (some a, b)) := by
  intro ts
  induction ts with
  | nil => intro prev i a b h; simp at h
  | cons t rest ih =>
    intro prev i a b ha hb
    cases i with
    | zero =>
      simp at ha
      cases rest with
      | nil => simp at hb
      | cons u us =>
        simp at hb
        subst ha hb
        simp [segsFrom_cons, segsFrom_cons]
    | succ k =>
      simp only [List.get?_cons_succ] at ha hb
      rw [segsFrom_cons]
      simpa using ih (some t) k a b ha hb

theorem segOf_ap_read_then_other (a b : DapTransfer)
    (ha : a.isApRead = true) (hb : b.isApRead = false) :
    segOf (some a, b) = [rdbuffKey, b.key] := by
  have hdir : a.direction = .read := by
    simp [DapTransfer.isApRead] at ha
    exact ha.2
  simp [segOf, prevApRead, prevBufferedWrite, ha, hb, hdir]

/-- C1: In the SWD engine's logical-to-physical batch rewrite
(`perform_transfers`), the physical batch decomposes into one segment per
logical transfer followed by a terminating segment; the segment of every
logical transfer that is not an AP read and whose immediately preceding
logical transfer was an AP read starts with a synthetic `read(DP, RDBUFF)`
placed immediately before it, and one synthetic `read(DP, RDBUFF)` is
appended at the end of the batch whenever the last transfer was an AP read
or a write whose status has not yet been fetched (any write except to
DP ABORT). -/
theorem perform_transfers_rdbuff_insertions (settings : SwdSettings) (idle : Nat)
    (ts : List DapTransfer) (hne : ts ≠ []) :
    ((expandTransfers settings idle ts).finalTransfers.map DapTransfer.key
        = (segsFrom none ts).flatten ++ endKeys ts) ∧
      (∀ i a b, ts.get? i = some a → ts.get? (i + 1) = some b →
        a.isApRead = true → b.isApRead = false →
        (segsFrom none ts).get? (i + 1) = some [rdbuffKey, b.key]) ∧
      (∀ tl, ts.getLast? = some tl → (tl.isApRead || wrpOf tl) = true →
        endKeys ts = [rdbuffKey]) := by
  obtain ⟨tl, htl⟩ : ∃ tl, ts.getLast? = some tl := by
    cases h : ts.getLast? with
    | none => exact absurd (List.getLast?_eq_none_iff.mp h) hne
    | some t => exact ⟨t, rfl⟩
  have hfold := foldl_performTransfersStep_spec settings idle ts emptyExpandState none
    rfl rfl
  refine ⟨?_, ?_, ?_⟩
  · unfold expandTransfers
    rw [performTransfersFinish_map_key, hfold.1]
    have : ((ts.foldl (performTransfersStep settings idle) emptyExpandState).needApRead ||
        (ts.foldl (performTransfersStep settings idle) emptyExpandState).writeResponsePending)
        = endCond ts := by
      rw [hfold.2.1, hfold.2.2.2, endCond, htl]
      simp [lastOr, htl, prevApRead]
    rw [this]
    simp [emptyExpandState, endKeys]
  · intro i a b ha hb hapa hapb
    rw [segsFrom_get?_succ ts none i a b ha hb,
      segOf_ap_read_then_other a b hapa hapb]
  · intro tl' htl' hcond
    simp [endKeys, endCond, htl', hcond]

/-- Witness for C1 at the concrete batch `[read(AP, 0x0)]`. -/
theorem perform_transfers_rdbuff_insertions_witness :
    (expandTransfers SwdSettings.default 16 [DapTransfer.read .accessPort 0x0]).finalTransfers.map
        DapTransfer.key
      = (segsFrom none [DapTransfer.read .accessPort 0x0]).flatten ++
          endKeys [DapTransfer.read .accessPort 0x0] :=
  (perform_transfers_rdbuff_insertions SwdSettings.default 16
    [DapTransfer.read .accessPort 0x0] (by decide)).1

/-! ### Claim C2: `read(AP, 0x0)` followed by `read(DP, 0x4)` -/

/-- The logical batch of claim C2. -/
def apThenDpBatch : List DapTransfer :=
  [DapTransfer.read .accessPort 0x0, DapTransfer.read .debugPort 0x4]

/-- The physical batch the SWD engine produces for `apThenDpBatch`. -/
def apThenDpPhysical : List DapTransfer :=
  (expandTransfers SwdSettings.default 16 apThenDpBatch).finalTransfers

/-- The result indices the SWD engine records for `apThenDpBatch`. -/
def apThenDpIndices : List Nat :=
  (expandTransfers SwdSettings.default 16 apThenDpBatch).resultIndices

/-- C2 counterexample: for `read(AP, 0x0); read(DP, 0x4)` the physical
sequence is not `read AP0, read AP0, read DP4` — the middle (synthetic)
transfer is a DebugPort RDBUFF read (address 0xC), not an AP re-read. -/
theorem ap_then_dp_not_ap_reread :
    apThenDpPhysical.map DapTransfer.key ≠
        [(PortType.accessPort, TransferDirection.read, 0x0),
          (PortType.accessPort, TransferDirection.read, 0x0),
          (PortType.debugPort, TransferDirection.read, 0x4)] ∧
      (apThenDpPhysical.getD 1 (DapTransfer.read .debugPort 0)).port =
        PortType.debugPort := by
  constructor <;> decide

/-- C2 (amended): for the logical batch `read(AP, 0x0); read(DP, 0x4)` the
physical sequence is `read AP0, read DP RDBUFF(0xC), read DP4` (one synthetic
RDBUFF read inserted between them), and the results are mapped so that the
caller's first transfer takes the second physical value and the caller's
second transfer takes the third physical value. -/
theorem ap_then_dp_physical_and_mapping (a b c : Nat) :
    apThenDpPhysical.map DapTransfer.key =
        [(PortType.accessPort, TransferDirection.read, 0x0),
          (PortType.debugPort, TransferDirection.read, RdBuff.ADDRESS),
          (PortType.debugPort, TransferDirection.read, 0x4)] ∧
      apThenDpIndices = [1, 2] ∧
      (retrieveResults (executeOk [a, b, c] apThenDpPhysical) apThenDpBatch
            apThenDpIndices).map DapTransfer.value = [b, c] ∧
      (retrieveResults (executeOk [a, b, c] apThenDpPhysical) apThenDpBatch
            apThenDpIndices).map DapTransfer.status = [.ok, .ok] := by
  refine ⟨by decide, by decide, rfl, rfl⟩

/-! ### Raw register access retry loops (`raw_read_register`,
`raw_write_register`, `raw_read_block` of `arm.rs`)

The probe is abstracted as a response oracle: `respond n` is the
acknowledge the target gives the n-th attempt of the transfer, `values n`
the accompanying wire value.  The DP ABORT writes and CTRL/STAT reads the
loops issue for error recovery, and the line resets, are modelled as
succeeding (under the all-WAIT hypothesis of claim C5 they would themselves
exhaust their retries with the same timeout outcome, so the modelled
outcome is unchanged). -/

/-- `DebugProbeError` outcomes produced by the raw register operations. -/
inductive DebugProbeError
  | timeout
  | dap (e : DapError)
deriving DecidableEq, Repr

/-- Outcome of `raw_read_register`: a value, an error, or a `panic!`
(the `TransferStatus::Pending` branch of the source). -/
inductive ReadOutcome
  | ok (v : Nat)
  | err (e : DebugProbeError)
  | panicked
deriving DecidableEq, Repr

/-- Outcome of `raw_write_register`. -/
inductive WriteOutcome
  | ok
  | err (e : DebugProbeError)
  | panicked
deriving DecidableEq, Repr

/-- The retry loop of `raw_read_register` (lines 930-1032 of `arm.rs`):
`fuel` counts the remaining iterations of
`for retry in 0..num_retries_after_wait`.  On OK the value is returned; on
WAIT the sticky overrun flag is cleared and the idle cycles double, capped
at `max_retry_idle_cycles_after_wait`; on FAULT the sticky flags are
cleared and `FaultResponse` surfaces; on any other failure a line reset is
performed and the transfer retried.  Falling out of the loop yields
`DebugProbeError::Timeout`. -/
def rawReadRegisterLoop (settings : SwdSettings) (respond : Nat → TransferStatus)
    (values : Nat → Nat) : Nat → Nat → Nat → ReadOutcome
  | 0, _, _ => .err .timeout
  | fuel + 1, attempt, idleCycles =>
    match respond attempt with
    | .ok => .ok (values attempt)
    | .pending => .panicked
    | .failed .waitResponse =>
      rawReadRegisterLoop settings respond values fuel (attempt + 1)
        (min settings.maxRetryIdleCyclesAfterWait (idleCycles * 2))
    | .failed .faultResponse => .err (.dap .faultResponse)
    | .failed _ =>
      rawReadRegisterLoop settings respond values fuel (attempt + 1) idleCycles

/-- `raw_read_register`: run the retry loop with the configured retry budget
and `max(1, num_idle_cycles_between_writes)` initial idle cycles. -/
def rawReadRegister (settings : SwdSettings) (respond : Nat → TransferStatus)
    (values : Nat → Nat) : ReadOutcome :=
  rawReadRegisterLoop settings respond values settings.numRetriesAfterWait 0
    (max 1 settings.numIdleCyclesBetweenWrites)

/-- The retry loop of `raw_write_register` (lines 1107-1215 of `arm.rs`),
identical in structure to the read loop. -/
def rawWriteRegisterLoop (settings : SwdSettings) (respond : Nat → TransferStatus) :
    Nat → Nat → Nat → WriteOutcome
  | 0, _, _ => .err .timeout
  | fuel + 1, attempt, idleCycles =>
    match respond attempt with
    | .ok => .ok
    | .pending => .panicked
    | .failed .waitResponse =>
      rawWriteRegisterLoop settings respond fuel (attempt + 1)
        (min settings.maxRetryIdleCyclesAfterWait (idleCycles * 2))
    | .failed .faultResponse => .err (.dap .faultResponse)
    | .failed _ =>
      rawWriteRegisterLoop settings respond fuel (attempt + 1) idleCycles

/-- `raw_write_register`. -/
def rawWriteRegister (settings : SwdSettings) (respond : Nat → TransferStatus) :
    WriteOutcome :=
  rawWriteRegisterLoop settings respond settings.numRetriesAfterWait 0
    (max 1 settings.numIdleCyclesBetweenWrites)

theorem rawReadRegisterLoop_all_wait (settings : SwdSettings)
    (respond : Nat → TransferStatus) (values : Nat → Nat)
    (h : ∀ n, respond n = .failed .waitResponse) :
    ∀ fuel attempt idleCycles,
      rawReadRegisterLoop settings respond values fuel attempt idleCycles
        = .err .timeout := by
  intro fuel
  induction fuel with
  | zero => intro attempt idleCycles; rfl
  | succ n ih =>
    intro attempt idleCycles
    simp only [rawReadRegisterLoop, h attempt]
    exact ih (attempt + 1) _

theorem rawWriteRegisterLoop_all_wait (settings : SwdSettings)
    (respond : Nat → TransferStatus)
    (h : ∀ n, respond n = .failed .waitResponse) :
    ∀ fuel attempt idleCycles,
      rawWriteRegisterLoop settings respond fuel attempt idleCycles
        = .err .timeout := by
  intro fuel
  induction fuel with
  | zero => intro attempt idleCycles; rfl
  | succ n ih =>
    intro attempt idleCycles
    simp only [rawWriteRegisterLoop, h attempt]
    exact ih (attempt + 1) _

/-- C5: If every attempt of a raw DAP register read or write receives a
WAIT response, the retry budget `num_retries_after_wait` (default 1000) is
exhausted and the operation fails with the wait-exhaustion outcome — the
error the code returns at the end of the loop (`DebugProbeError::Timeout`,
which the spec's failure model names `WaitExhausted`). -/
theorem raw_register_access_wait_exhaustion (settings : SwdSettings)
    (respondR respondW : Nat → TransferStatus) (values : Nat → Nat)
    (hR : ∀ n, respondR n = .failed .waitResponse)
    (hW : ∀ n, respondW n = .failed .waitResponse) :
    rawReadRegister settings respondR values = .err .timeout ∧
      rawWriteRegister settings respondW = .err .timeout ∧
      SwdSettings.default.numRetriesAfterWait = 1000 :=
  ⟨rawReadRegisterLoop_all_wait settings respondR values hR _ _ _,
    rawWriteRegisterLoop_all_wait settings respondW hW _ _ _, rfl⟩

/-- Witness for C5: the probe that always answers WAIT. -/
theorem raw_register_access_wait_exhaustion_witness :
    rawReadRegister SwdSettings.default (fun _ => .failed .waitResponse)
        (fun _ => 0) = .err .timeout ∧
      rawWriteRegister SwdSettings.default (fun _ => .failed .waitResponse)
        = .err .timeout :=
  ⟨(raw_register_access_wait_exhaustion SwdSettings.default
      (fun _ => .failed .waitResponse) (fun _ => .failed .waitResponse)
      (fun _ => 0) (fun _ => rfl) (fun _ => rfl)).1,
    (raw_register_access_wait_exhaustion SwdSettings.default
      (fun _ => .failed .waitResponse) (fun _ => .failed .waitResponse)
      (fun _ => 0) (fun _ => rfl) (fun _ => rfl)).2.1⟩

/-! ### `raw_read_block` and the empty batch (claim C6) -/

/-- Outcome of `raw_read_block`. -/
inductive BlockResult
  | ok
  | err (e : DebugProbeError)
  | panicked
deriving DecidableEq, Repr

/-- The inner result scan of `raw_read_block`: the number of leading OK
responses in a batch and the first non-OK status, if any (the source loop
stops processing a batch at its first WAIT or failure). -/
def scanBlock : List TransferStatus → Nat × Option TransferStatus
  | [] => (0, none)
  | .ok :: rest =>
    let r := scanBlock rest
    (r.1 + 1, r.2)
  | s :: _ => (0, some s)

/-- The retry loop of `raw_read_block` (lines 1034-1105 of `arm.rs`).
`respond attempt pos` is the acknowledge of the transfer at position `pos`
of the batch issued on iteration `attempt`; `issued` accumulates the total
number of transfers handed to `perform_transfers` (the wire activity).
The loop first breaks when all `len` values have been read; otherwise it
issues one read transfer per missing value.  A WAIT retries the remainder
after clearing the sticky overrun flag and doubling the idle cycles; any
other failure is returned; exhausting the retries falls through to `Ok`. -/
def rawReadBlockLoop (settings : SwdSettings) (respond : Nat → Nat → TransferStatus)
    (len : Nat) : Nat → Nat → Nat → Nat → Nat → Nat × BlockResult
  | 0, _, _, _, issued => (issued, .ok)
  | fuel + 1, attempt, successful, idleCycles, issued =>
    if successful == len then (issued, .ok)
    else
      let count := len - successful
      let scanned := scanBlock ((List.range count).map (respond attempt))
      match scanned.2 with
      | none =>
        rawReadBlockLoop settings respond len fuel (attempt + 1)
          (successful + scanned.1) idleCycles (issued + count)
      | some (.failed .waitResponse) =>
        rawReadBlockLoop settings respond len fuel (attempt + 1)
          (successful + scanned.1)
          (min settings.maxRetryIdleCyclesAfterWait (idleCycles * 2))
          (issued + count)
      | some (.failed e) => (issued + count, .err (.dap e))
      | some .pending => (issued + count, .panicked)
      | some .ok => (issued + count, .ok)

/-- `raw_read_block`: returns the number of transfers issued on the wire and
the outcome. -/
def rawReadBlock (settings : SwdSettings) (respond : Nat → Nat → TransferStatus)
    (len : Nat) : Nat × BlockResult :=
  rawReadBlockLoop settings respond len settings.numRetriesAfterWait 0 0
    (max 1 settings.numIdleCyclesBetweenWrites) 0

/-- C6 counterexample: the batch-processing function `perform_transfers` is
not total on the empty batch — its `assert!(!transfers.is_empty())` fires,
modelled as `none`. -/
theorem perform_transfers_empty_panics :
    performTransfers SwdSettings.default 2 [] = none := rfl

/-- C6 (amended): submitting an empty SWD batch through the block API
(`raw_read_block` with zero values) issues no wire transfers and returns Ok;
the internal batch-processing function `perform_transfers` itself is never
called with the empty batch and rejects it by assertion (modelled as `none`)
rather than returning Ok. -/
theorem raw_read_block_empty (settings : SwdSettings)
    (respond : Nat → Nat → TransferStatus) (idleCycles : Nat) :
    rawReadBlock settings respond 0 = (0, .ok) ∧
      performTransfers settings idleCycles [] = none := by
  constructor
  · unfold rawReadBlock
    cases settings.numRetriesAfterWait with
    | zero => rfl
    | succ n => rfl
  · rfl

/-! ## Flash programming engine (`src/probe-rs/src/flashing/flasher.rs`)

The flash engine drives the target's flash algorithm by invoking its entry
points.  The embedding records the sequence of entry-point invocations (a
trace of `RoutineCall`s) and threads the `Result`-style control flow of the
source.  Target accesses that are not entry-point invocations (halting the
core, writing page data into RAM, setting registers, waiting for a halt) are
modelled as succeeding; the claims concern the invocation order and the
propagation of non-zero routine result codes.  The flash layout is taken as
an input (its construction lives in the flash builder, outside `flasher.rs`). -/

/-- The `Operation` marker types of `flasher.rs` with their
`Operation::operation()` codes. -/
inductive FlashOp
  | erase
  | program
  | verify
deriving DecidableEq, Repr

/-- `Operation::operation()`: Erase = 1, Program = 2, Verify = 3. -/
def FlashOp.code : FlashOp → Nat
  | .erase => 1
  | .program => 2
  | .verify => 3

/-- One invocation of a flash-algorithm entry point, with the argument
registers the engine passes (`call_function`). -/
inductive RoutineCall
  | init (address clock op : Nat)
  | uninit (op : Nat)
  | eraseSector (address : Nat)
  | eraseAll
  | programPage (address size dataAddress : Nat)
deriving DecidableEq, Repr

/-- `FlashError` variants produced by the modelled paths. -/
inductive FlashError
  | routineCallFailed (name : String) (code : Nat)
  | pageWrite (pageAddress : Nat) (source : FlashError)
  | eraseFailed (sectorAddress : Nat) (source : FlashError)
  | chipEraseFailed (source : FlashError)
  | chipEraseNotSupported
deriving DecidableEq, Repr

/-- The fields of the assembled `FlashAlgorithm` used by the programming
pipeline. -/
structure FlashAlgorithm where
  pcInit : Option Nat
  pcUninit : Option Nat
  pcProgramPage : Nat
  pcEraseSector : Nat
  pcEraseAll : Option Nat
  beginData : Nat
  pageBuffers : List Nat
  flashStart : Nat
  pageSize : Nat
deriving DecidableEq, Repr

/-- A page of the flash layout: address and data size. -/
structure FlashPage where
  address : Nat
  size : Nat
deriving DecidableEq, Repr

/-- A sector of the flash layout. -/
structure FlashSector where
  address : Nat
  size : Nat
deriving DecidableEq, Repr

/-- The flash layout derived by the flash builder (taken as input here). -/
structure FlashLayout where
  sectors : List FlashSector
  pages : List FlashPage
  fillCount : Nat
deriving DecidableEq, Repr

/-- A behaviour of the loaded algorithm: the result code each entry-point
invocation returns in the first result register. -/
def FlashBehavior : Type := RoutineCall → Nat

/-- Record an entry-point invocation and obtain its result code. -/
def callRoutine (beh : FlashBehavior) (tr : List RoutineCall) (c : RoutineCall) :
    List RoutineCall × Nat :=
  (tr ++ [c], beh c)

/-- `ActiveFlasher::init`: if `pc_init` is present, call it with
`r0 = flash start address`, `r1 = clock or 0`, `r2 = operation code`;
a non-zero result is `RoutineCallFailed("init", code)`. -/
def activeInit (algo : FlashAlgorithm) (beh : FlashBehavior) (op : FlashOp)
    (tr : List RoutineCall) : List RoutineCall × Except FlashError Unit :=
  match algo.pcInit with
  | none => (tr, .ok ())
  | some _ =>
    let r := callRoutine beh tr (.init algo.flashStart 0 op.code)
    if r.2 ≠ 0 then (r.1, .error (.routineCallFailed "init" r.2))
    else (r.1, .ok ())

/-- `ActiveFlasher::uninit`: if `pc_uninit` is present, call it with
`r0 = operation code`; a non-zero result is
`RoutineCallFailed("uninit", code)`. -/
def activeUninit (algo : FlashAlgorithm) (beh : FlashBehavior) (op : FlashOp)
    (tr : List RoutineCall) : List RoutineCall × Except FlashError Unit :=
  match algo.pcUninit with
  | none => (tr, .ok ())
  | some _ =>
    let r := callRoutine beh tr (.uninit op.code)
    if r.2 ≠ 0 then (r.1, .error (.routineCallFailed "uninit" r.2))
    else (r.1, .ok ())

/-- `ActiveFlasher::erase_sector`: call `pc_erase_sector(address)`;
a non-zero result is `RoutineCallFailed("erase_sector", code)`. -/
def activeEraseSector (algo : FlashAlgorithm) (beh : FlashBehavior) (address : Nat)
    (tr : List RoutineCall) : List RoutineCall × Except FlashError Unit :=
  let r := callRoutine beh tr (.eraseSector address)
  if r.2 ≠ 0 then (r.1, .error (.routineCallFailed "erase_sector" r.2))
  else (r.1, .ok ())

/-- `ActiveFlasher::program_page`: transfer the page bytes to `begin_data`
(a plain memory write, not an entry point), then call
`pc_program_page(address, size, begin_data)`; a non-zero result is
`PageWrite{address, RoutineCallFailed("program_page", code)}`. -/
def activeProgramPage (algo : FlashAlgorithm) (beh : FlashBehavior) (p : FlashPage)
    (tr : List RoutineCall) : List RoutineCall × Except FlashError Unit :=
  let r := callRoutine beh tr (.programPage p.address p.size algo.beginData)
  if r.2 ≠ 0 then
    (r.1, .error (.pageWrite p.address (.routineCallFailed "program_page" r.2)))
  else (r.1, .ok ())

/-- `Flasher::run_erase` / `run_program` / `run_verify`: init with the
operation code, run the body — whose error propagates immediately through
the `?` operator, skipping uninit — and on success uninit. -/
def runWithOp (algo : FlashAlgorithm) (beh : FlashBehavior) (op : FlashOp)
    (f : List RoutineCall → List RoutineCall × Except FlashError Unit)
    (tr : List RoutineCall) : List RoutineCall × Except FlashError Unit :=
  match activeInit algo beh op tr with
  | (tr1, .error e) => (tr1, .error e)
  | (tr1, .ok ()) =>
    match f tr1 with
    | (tr2, .error e) => (tr2, .error e)
    | (tr2, .ok ()) => activeUninit algo beh op tr2

/-- The loop body of `Flasher::program_simple`: program each page in order,
wrapping any failure in a further `PageWrite{page address, ..}`. -/
def programPagesLoop (algo : FlashAlgorithm) (beh : FlashBehavior) :
    List FlashPage → List RoutineCall → List RoutineCall × Except FlashError Unit
  | [], tr => (tr, .ok ())
  | p :: rest, tr =>
    match activeProgramPage algo beh p tr with
    | (tr1, .error e) => (tr1, .error (.pageWrite p.address e))
    | (tr1, .ok ()) => programPagesLoop algo beh rest tr1

/-- The loop body of `Flasher::sector_erase`: erase each sector in order,
wrapping any failure in `EraseFailed{sector address, ..}`. -/
def eraseSectorsLoop (algo : FlashAlgorithm) (beh : FlashBehavior) :
    List FlashSector → List RoutineCall → List RoutineCall × Except FlashError Unit
  | [], tr => (tr, .ok ())
  | s :: rest, tr =>
    match activeEraseSector algo beh s.address tr with
    | (tr1, .error e) => (tr1, .error (.eraseFailed s.address e))
    | (tr1, .ok ()) => eraseSectorsLoop algo beh rest tr1

/-- `Flasher::program_simple`: the page loop under a Program init/uninit
pair. -/
def programSimple (algo : FlashAlgorithm) (beh : FlashBehavior)
    (pages : List FlashPage) (tr : List RoutineCall) :
    List RoutineCall × Except FlashError Unit :=
  runWithOp algo beh .program (programPagesLoop algo beh pages) tr

/-- `Flasher::sector_erase`: the sector loop under an Erase init/uninit
pair. -/
def sectorErase (algo : FlashAlgorithm) (beh : FlashBehavior)
    (sectors : List FlashSector) (tr : List RoutineCall) :
    List RoutineCall × Except FlashError Unit :=
  runWithOp algo beh .erase (eraseSectorsLoop algo beh sectors) tr

/-- `Flasher::fill_page`, invoked once per fill: a Verify init/uninit pair
around a plain flash read (the read itself is not an entry point). -/
def fillPagesLoop (algo : FlashAlgorithm) (beh : FlashBehavior) :
    Nat → List RoutineCall → List RoutineCall × Except FlashError Unit
  | 0, tr => (tr, .ok ())
  | n + 1, tr =>
    match runWithOp algo beh .verify (fun tr0 => (tr0, .ok ())) tr with
    | (tr1, .error e) => (tr1, .error e)
    | (tr1, .ok ()) => fillPagesLoop algo beh n tr1

/-- The loop body of `Flasher::program_double_buffer`: for each page, load
its data into the current buffer, wait for the previous `program_page` to
finish (checking its result code), then start `program_page` on the current
buffer and swap buffers; finally wait for the last `program_page`. -/
def programDoubleLoop (algo : FlashAlgorithm) (beh : FlashBehavior) :
    List FlashPage → Nat → Option RoutineCall → List RoutineCall →
      List RoutineCall × Except FlashError Unit
  | [], _, pending, tr =>
    let r := match pending with
      | none => 0
      | some c => beh c
    if r ≠ 0 then (tr, .error (.routineCallFailed "wait_for_completion" r))
    else (tr, .ok ())
  | p :: rest, currentBuf, pending, tr =>
    let r := match pending with
      | none => 0
      | some c => beh c
    if r ≠ 0 then (tr, .error (.routineCallFailed "program_page" r))
    else
      let c := RoutineCall.programPage p.address algo.pageSize
        (algo.pageBuffers.getD currentBuf 0)
      programDoubleLoop algo beh rest (if currentBuf == 1 then 0 else 1) (some c)
        (tr ++ [c])

/-- `Flasher::program_double_buffer`. -/
def programDouble (algo : FlashAlgorithm) (beh : FlashBehavior)
    (pages : List FlashPage) (tr : List RoutineCall) :
    List RoutineCall × Except FlashError Unit :=
  runWithOp algo beh .program (programDoubleLoop algo beh pages 0 none) tr

/-- `Flasher::program` (lines 229-291): fill phase when restoring unwritten
bytes, erase phase unless skipped, then the double-buffered path when two
page buffers are declared and double buffering is enabled, else the simple
path. -/
def flasherProgram (algo : FlashAlgorithm) (beh : FlashBehavior)
    (layout : FlashLayout)
    (restoreUnwrittenBytes enableDoubleBuffering skipErasing : Bool)
    (tr : List RoutineCall) : List RoutineCall × Except FlashError Unit :=
  match (if restoreUnwrittenBytes then fillPagesLoop algo beh layout.fillCount tr
    else (tr, .ok ())) with
  | (tr1, .error e) => (tr1, .error e)
  | (tr1, .ok ()) =>
    match (if !skipErasing then sectorErase algo beh layout.sectors tr1
      else (tr1, .ok ())) with
    | (tr2, .error e) => (tr2, .error e)
    | (tr2, .ok ()) =>
      if algo.pageBuffers.length > 1 && enableDoubleBuffering then
        programDouble algo beh layout.pages tr2
      else
        programSimple algo beh layout.pages tr2

/-! ### The single-page scenario of claims C3 and C4 -/

/-- The loaded algorithm of the scenario: init and uninit present, one page
buffer, data staging at `0x2000_0400`, flash starting at `0x0800_0000`. -/
def scenarioAlgo : FlashAlgorithm :=
  { pcInit := some 0x20000001
    pcUninit := some 0x20000041
    pcProgramPage := 0x20000081
    pcEraseSector := 0x200000C1
    pcEraseAll := none
    beginData := 0x20000400
    pageBuffers := [0x20000400]
    flashStart := 0x08000000
    pageSize := 256 }

/-- The layout of the scenario: one sector and one 256-byte page at
`0x0800_0000`, no fills. -/
def scenarioLayout : FlashLayout :=
  { sectors := [⟨0x08000000, 4096⟩]
    pages := [⟨0x08000000, 256⟩]
    fillCount := 0 }

/-- The behaviour where every routine returns 0. -/
def behaviorAllOk : FlashBehavior := fun _ => 0

/-- The behaviour where `program_page` returns 1 and every other routine
returns 0. -/
def behaviorPageFails : FlashBehavior := fun c =>
  match c with
  | .programPage _ _ _ => 1
  | _ => 0

/-- The C4 scenario run: program a single 256-byte page at `0x0800_0000`
with a single page buffer, no chip erase, no skip-erase, no
restore-unwritten, every routine returning 0. -/
def scenarioRunOk : List RoutineCall × Except FlashError Unit :=
  flasherProgram scenarioAlgo behaviorAllOk scenarioLayout false false false []

/-- The C3 scenario run: as `scenarioRunOk` but `program_page` returns 1. -/
def scenarioRunPageFails : List RoutineCall × Except FlashError Unit :=
  flasherProgram scenarioAlgo behaviorPageFails scenarioLayout false false false []

/-- The entry-point order stated by claim C4. -/
def claimedC4Trace : List RoutineCall :=
  [.init 0x08000000 0 2, .eraseSector 0x08000000,
    .programPage 0x08000000 256 0x20000400, .uninit 2]

/-- C4 counterexample: the scenario does not invoke the entry points in the
claimed order `init(op=Program), erase_sector, program_page, uninit` — the
first invocation is `init` with `op = Erase` (code 1) and six entry points
are invoked, not four. -/
theorem single_page_program_not_claimed_order :
    scenarioRunOk.1 ≠ claimedC4Trace ∧
      scenarioRunOk.1.getD 0 (.uninit 0) = .init 0x08000000 0 FlashOp.erase.code ∧
      scenarioRunOk.1.length = 6 := by
  refine ⟨by decide, by decide, by decide⟩

/-- C4 (amended): programming a single page with a single page buffer (no
chip erase, no skip-erase, no restore-unwritten) invokes the entry points in
exactly the order `init(op=Erase)`, `erase_sector(page address)`,
`uninit(op=Erase)`, `init(op=Program)`,
`program_page(page address, size, begin_data)`, `uninit(op=Program)` —
the erase and program phases each run under their own init/uninit pair —
and when every routine returns 0 the overall result is Ok. -/
theorem single_page_program_call_order :
    scenarioRunOk =
      ([.init 0x08000000 0 1, .eraseSector 0x08000000, .uninit 1,
        .init 0x08000000 0 2, .programPage 0x08000000 256 0x20000400,
        .uninit 2], .ok ()) := by
  rfl

/-- C3 counterexample: when `program_page` returns 1, the engine does not
call `uninit` before propagating the error — the failing `program_page` is
the last entry point invoked and no Program-phase `uninit` (op = 2) appears
in the trace (the only `uninit` is the earlier Erase-phase one). -/
theorem page_write_failure_skips_uninit :
    scenarioRunPageFails.1.getLast? =
        some (.programPage 0x08000000 256 0x20000400) ∧
      scenarioRunPageFails.1.count (.uninit FlashOp.program.code) = 0 := by
  refine ⟨by decide, by decide⟩

/-- C3 (amended): when `program_page` returns a non-zero result code the
engine propagates the PageWrite error immediately — `run_program` applies
the `?` operator to the programming closure before reaching its `uninit`
call, so `uninit` is not invoked for the program phase; the overall error
is `PageWrite{0x0800_0000, PageWrite{0x0800_0000,
RoutineCallFailed("program_page", 1)}}`. -/
theorem page_write_failure_propagation :
    scenarioRunPageFails =
      ([.init 0x08000000 0 1, .eraseSector 0x08000000, .uninit 1,
        .init 0x08000000 0 2, .programPage 0x08000000 256 0x20000400],
        .error (.pageWrite 0x08000000 (.pageWrite 0x08000000
          (.routineCallFailed "program_page" 1)))) := by
  rfl

/-! ## ARMv6-M core driver (`src/probe-rs/src/architecture/arm/core/armv6m.rs`) -/

/-- Core-level error kinds of the Cortex-M driver relevant here
(`Error::ArchitectureSpecific` wraps the originating condition; only the
kind matters for the claims). -/
inductive CoreError
  | architectureSpecific
  | probeTimeout
deriving DecidableEq, Repr

/-- `BpCompx::ADDRESS` — the first breakpoint comparator register. -/
def BpCompx.ADDRESS : Nat := 0xE0002008

/-- The BP_COMPx value built by `Armv6m::set_hw_breakpoint` for address
`addr`: `BP_MATCH` (bits 31:30) is `01` for the lower halfword
(`addr % 4 < 2`) and `10` for the upper halfword, `COMP` (bits 28:2) is
`(addr >> 2) & 0x07FF_FFFF`, and `ENABLE` (bit 0) is set. -/
def bpCompxValue (addr : Nat) : Nat :=
  let v := setField 0 30 2 (if addr % 4 < 2 then 0b01 else 0b10)
  let v := setField v 2 27 (addr >>> 2 &&& 0x07FFFFFF)
  setField v 0 1 1

/-- `Armv6m::set_hw_breakpoint` (lines 649-674): reject addresses at or
above `0x2000_0000` with an `ArchitectureSpecific` error; otherwise return
the comparator register written (`BP_COMP + 4 * index`) and the value
stored into it. -/
def setHwBreakpointV6m (bpRegisterIndex addr : Nat) :
    Except CoreError (Nat × Nat) :=
  if 0x20000000 ≤ addr then .error .architectureSpecific
  else .ok (BpCompx.ADDRESS + bpRegisterIndex * 4, bpCompxValue addr)

/-- C7: For every 32-bit address `a`, `set_hw_breakpoint` on ARMv6-M fails
with an `ArchitectureSpecific` error when `a ≥ 0x2000_0000`; when
`a < 0x2000_0000` it writes the breakpoint comparator with `MATCH = 01` if
`a % 4 < 2` and `MATCH = 10` otherwise; in particular a breakpoint at
`0x1FFF_FFFE` succeeds with `MATCH = 10` and one at `0x2000_0000` fails. -/
theorem set_hw_breakpoint_v6m_spec (a : Nat) (h : a < 2 ^ 32) :
    (0x20000000 ≤ a → setHwBreakpointV6m 0 a = .error .architectureSpecific) ∧
      (a < 0x20000000 →
        setHwBreakpointV6m 0 a = .ok (0xE0002008, bpCompxValue a) ∧
          getField (bpCompxValue a) 30 2 = (if a % 4 < 2 then 0b01 else 0b10)) ∧
      setHwBreakpointV6m 0 0x1FFFFFFE =
        .ok (0xE0002008, bpCompxValue 0x1FFFFFFE) ∧
      getField (bpCompxValue 0x1FFFFFFE) 30 2 = 0b10 ∧
      setHwBreakpointV6m 0 0x20000000 = .error .architectureSpecific := by
  have hcomp : a >>> 2 &&& 0x07FFFFFF < 2 ^ 27 := by
    have := Nat.and_le_right (n := a >>> 2) (m := 0x07FFFFFF)
    omega
  refine ⟨?_, ?_, by rfl, by decide, by rfl⟩
  · intro hge
    simp [setHwBreakpointV6m, hge]
  · intro hlt
    constructor
    · simp [setHwBreakpointV6m, BpCompx.ADDRESS, Nat.not_le.mpr hlt]
    · by_cases hm : a % 4 < 2 <;>
        simp only [bpCompxValue, setField, getField, hm, if_true, if_false] <;>
        norm_num <;> omega

/-- Witness for C7 at the boundary address `0x1FFF_FFFE`. -/
theorem set_hw_breakpoint_v6m_spec_witness :
    getField (bpCompxValue 0x1FFFFFFE) 30 2 =
      (if 0x1FFFFFFE % 4 < 2 then 0b01 else 0b10) :=
  ((set_hw_breakpoint_v6m_spec 0x1FFFFFFE (by norm_num)).2.1 (by norm_num)).2

/-- `Dhcsr::enable_write`: clear the upper 16 bits and set the debug key
`0xA05F` there (`self.0 &= !(0xffff << 16); self.0 |= 0xa05f << 16`). -/
def Dhcsr.enableWrite (v : Nat) : Nat :=
  v &&& 0xFFFF ||| 0xA05F <<< 16

/-- A `bitfield` single-bit setter of the DHCSR wrapper. -/
def dhcsrSetBit (v bit : Nat) (b : Bool) : Nat :=
  setField v bit 1 (if b then 1 else 0)

/-- The DHCSR value written by `Armv6m::halt`:
`C_HALT = 1` (bit 1), `C_DEBUGEN = 1` (bit 0), key set. -/
def dhcsrHaltValue : Nat :=
  Dhcsr.enableWrite (dhcsrSetBit (dhcsrSetBit 0 1 true) 0 true)

/-- The DHCSR value written by `Armv6m::run` after its initial step:
`C_HALT = 0`, `C_DEBUGEN = 1`, key set. -/
def dhcsrResumeValue : Nat :=
  Dhcsr.enableWrite (dhcsrSetBit (dhcsrSetBit 0 1 false) 0 true)

/-- The DHCSR value written by `Armv6m::step`: `C_STEP = 1` (bit 2),
`C_HALT = 0`, `C_DEBUGEN = 1`, `C_MASKINTS = 1` (bit 3), key set. -/
def dhcsrStepValue : Nat :=
  Dhcsr.enableWrite
    (dhcsrSetBit (dhcsrSetBit (dhcsrSetBit (dhcsrSetBit 0 2 true) 1 false) 0 true) 3 true)

/-- The DHCSR writes emitted by `Armv6m::halt`: a single halt-request
write. -/
def haltDhcsrWrites : List Nat := [dhcsrHaltValue]

/-- The DHCSR writes emitted by `Armv6m::step`: a single step-request
write (its other register accesses touch BP_CTRL, DCRSR and DCRDR, not
DHCSR). -/
def stepDhcsrWrites : List Nat := [dhcsrStepValue]

/-- The DHCSR writes emitted by `Armv6m::run`: `run` performs a `step()`
first, then writes its own resume request. -/
def runDhcsrWrites : List Nat := stepDhcsrWrites ++ [dhcsrResumeValue]

/-- C8: every write to the DHCSR register emitted by the Cortex-M core
driver in `halt`, `run` and `step` carries the debug key `0xA05F` in the
upper 16 bits of the written 32-bit value. -/
theorem dhcsr_writes_carry_debug_key :
    ∀ v ∈ haltDhcsrWrites ++ runDhcsrWrites ++ stepDhcsrWrites,
      v < 2 ^ 32 ∧ v / 2 ^ 16 = 0xA05F := by
  decide

/-- Witness for C8 at the halt-request write. -/
theorem dhcsr_writes_carry_debug_key_witness :
    dhcsrHaltValue < 2 ^ 32 ∧ dhcsrHaltValue / 2 ^ 16 = 0xA05F :=
  dhcsr_writes_carry_debug_key dhcsrHaltValue (by decide)

/-! ## ARMv7-A core driver (`src/probe-rs/src/architecture/arm/core/armv7a.rs`)

The driver state (`current_state`, `register_cache`, `itr_enabled`) is
paired with the target's halted bit, which in this model changes only
through the driver's own halt/run/reset requests.  Core registers are read
through instruction injection; the values the injected sequences deliver are
abstracted as an oracle `hwRegs`.  An injection attempted while the target
is not actually halted would spin forever in the driver's unbounded
`INSTRCOML` poll; this divergence is modelled as the `unboundedPoll`
error outcome. -/

/-- Halt reasons decoded from `DBGDSCR` (`Dbgdscr::halt_reason`). -/
inductive HaltReason7a
  | request
  | breakpoint
  | external
  | watchpoint
  | exception
  | unknown
deriving DecidableEq, Repr

/-- `CoreStatus` values taken by the ARMv7-A driver. -/
inductive CoreStatus7a
  | running
  | halted (reason : HaltReason7a)
deriving DecidableEq, Repr

/-- `CoreStatus::is_halted`. -/
def CoreStatus7a.isHalted : CoreStatus7a → Bool
  | .halted _ => true
  | .running => false

/-- Error outcomes of the modelled ARMv7-A paths. -/
inductive Armv7aError
  | invalidRegisterNumber
  | notHalted
  | timeout
  | unboundedPoll
deriving DecidableEq, Repr

/-- The driver-visible state: the cached core status, the 17-slot register
cache mapping register index to `(value, writeback flag)`, the lazy ITR
enable flag, and the target's halted bit with the reason it would report. -/
structure Armv7aState where
  currentState : CoreStatus7a
  registerCache : List (Option (Nat × Bool))
  itrEnabled : Bool
  hwHalted : Bool
  hwHaltReason : HaltReason7a
deriving DecidableEq, Repr

/-- `Armv7a::reset_register_cache`. -/
def resetRegisterCache (s : Armv7aState) : Armv7aState :=
  { s with registerCache := List.replicate 17 none }

/-- The status the driver decodes from DBGDSCR (`Armv7a::status`,
lines 565-585): halted with the hardware's reason, else running. -/
def statusResult (s : Armv7aState) : CoreStatus7a :=
  if s.hwHalted then .halted s.hwHaltReason else .running

/-- `Armv7a::status` also stores the decoded status in `current_state`. -/
def execStatus (s : Armv7aState) : Armv7aState :=
  { s with currentState := statusResult s }

/-- The gate of `Armv7a::execute_instruction`: fails with `NotHalted` when
the driver's cached state is not halted; an injection while the target is
not actually halted never completes (`unboundedPoll`). -/
def executeGate (s : Armv7aState) : Option Armv7aError :=
  if !s.currentState.isHalted then some .notHalted
  else if !s.hwHalted then some .unboundedPoll
  else none

/-- `Armv7a::read_core_reg` (lines 415-473): serve cached values; otherwise
inject the transfer sequence (registers 0-14 directly; PC and CPSR via r0,
saving r0 into the cache with the writeback flag first) and cache the
result; register numbers above 16 are invalid. -/
def execReadCoreReg (hwRegs : Nat → Nat) (s : Armv7aState) (n : Nat) :
    Armv7aState × Except Armv7aError Nat :=
  match s.registerCache.getD n none with
  | some c => (s, .ok c.1)
  | none =>
    if n ≤ 14 then
      match executeGate s with
      | some e => (s, .error e)
      | none =>
        let v := hwRegs n
        ({ s with
            itrEnabled := true
            registerCache := s.registerCache.set n (some (v, false)) }, .ok v)
    else if n == 15 || n == 16 then
      match executeGate s with
      | some e => (s, .error e)
      | none =>
        let s1 :=
          if (s.registerCache.getD 0 none).isNone then
            { s with
                itrEnabled := true
                registerCache := s.registerCache.set 0 (some (hwRegs 0, true)) }
          else s
        let v := if n == 15 then hwRegs 15 - 8 else hwRegs 16
        ({ s1 with
            itrEnabled := true
            registerCache := s1.registerCache.set n (some (v, false)) }, .ok v)
    else (s, .error .invalidRegisterNumber)

/-- `Armv7a::write_core_reg` (lines 475-486): register numbers above 16 are
invalid; otherwise the value is stored in the cache with the writeback flag
set — with no check that the core is halted and no target access. -/
def execWriteCoreReg (s : Armv7aState) (n v : Nat) :
    Armv7aState × Except Armv7aError Unit :=
  if 17 ≤ n then (s, .error .invalidRegisterNumber)
  else ({ s with registerCache := s.registerCache.set n (some (v, true)) }, .ok ())

/-- Whether the cache holds an entry flagged for writeback. -/
def hasDirtyEntry (s : Armv7aState) : Bool :=
  s.registerCache.any fun e =>
    match e with
    | some (_, true) => true
    | _ => false

/-- `Armv7a::writeback_registers`: write every dirty cache entry back
through instruction injection (subject to the execution gate), then clear
the cache. -/
def execWriteback (s : Armv7aState) : Armv7aState × Except Armv7aError Unit :=
  if hasDirtyEntry s then
    match executeGate s with
    | some e => (s, .error e)
    | none => (resetRegisterCache { s with itrEnabled := true }, .ok ())
  else (resetRegisterCache s, .ok ())

/-- Propagation of the `?` operator on driver sub-operations: an error
short-circuits with the state the sub-operation left behind. -/
def bindStep {α β : Type} (r : Armv7aState × Except Armv7aError α)
    (f : Armv7aState → α → Armv7aState × Except Armv7aError β) :
    Armv7aState × Except Armv7aError β :=
  match r with
  | (s, .error e) => (s, .error e)
  | (s, .ok v) => f s v

/-- `Armv7a::run` (lines 287-312): write back dirty registers (clearing the
cache), request a restart through DBGDRCR.RRQ, poll for the restart
acknowledge, set the cached state to Running and re-verify via `status`. -/
def execRun (s : Armv7aState) : Armv7aState × Except Armv7aError Unit :=
  bindStep (execWriteback s) fun s1 _ =>
    (execStatus { s1 with hwHalted := false, currentState := .running }, .ok ())

/-- `Armv7a::halt`: request a halt through DBGDRCR.HRQ, wait for the halted
bit, clear the register cache, refresh the status and read the PC (which
re-populates the cache with r0 and the PC). -/
def execHalt (hwRegs : Nat → Nat) (s : Armv7aState) :
    Armv7aState × Except Armv7aError Unit :=
  bindStep
    (execReadCoreReg hwRegs (execStatus (resetRegisterCache { s with hwHalted := true })) 15)
    fun s2 _ => (s2, .ok ())

/-- `Armv7a::reset` (lines 314-325): run the external `reset_system`
sequence (after which the core runs) and clear the register cache; the
cached `current_state` is not updated. -/
def execReset (s : Armv7aState) : Armv7aState × Except Armv7aError Unit :=
  (resetRegisterCache { s with hwHalted := false }, .ok ())

/-- `Armv7a::reset_and_halt`: reset with the halt request armed, wait for
the halt, refresh the status, clear the cache and read the PC. -/
def execResetAndHalt (hwRegs : Nat → Nat) (s : Armv7aState) :
    Armv7aState × Except Armv7aError Unit :=
  bindStep
    (execReadCoreReg hwRegs (resetRegisterCache (execStatus { s with hwHalted := true })) 15)
    fun s2 _ => (s2, .ok ())

/-- `Armv7a::step` (lines 368-413): read the PC, program the mismatch
breakpoint (DBGBVR/DBGBCR accesses, no driver-state effect), resume via
`run`, then wait up to 100 ms for the halt; in this model the resumed core
keeps running, so the bounded wait expires. -/
def execStep (hwRegs : Nat → Nat) (s : Armv7aState) :
    Armv7aState × Except Armv7aError Unit :=
  bindStep (execReadCoreReg hwRegs s 15) fun s1 _ =>
    bindStep (execRun s1) fun s2 _ =>
      if s2.hwHalted then
        bindStep (execReadCoreReg hwRegs s2 15) fun s3 _ => (s3, .ok ())
      else (s2, .error .timeout)

/-- `Armv7a::enable_breakpoints` (lines 498-501): breakpoints are always on
with v7-A; the call performs no target access and returns Ok for either
argument.  The access trace it produces is empty. -/
def enableBreakpointsV7a (state : Bool) :
    List (Nat × Option Nat) × Except Armv7aError Unit :=
  ([], .ok ())

/-- `Armv7a::hw_breakpoints_enabled` (lines 543-545): constantly true. -/
def hwBreakpointsEnabledV7a : Bool := true

/-- The core-driver operations of the sequence model. -/
inductive CoreOp
  | halt
  | run
  | reset
  | resetAndHalt
  | getStatus
  | step
  | readCoreReg (n : Nat)
  | writeCoreReg (n : Nat) (v : Nat)
  | enableBreakpoints (b : Bool)
deriving DecidableEq, Repr

/-- Execute one driver operation (keeping the resulting state; a failed
operation leaves the state as the driver left it). -/
def execOp (hwRegs : Nat → Nat) (s : Armv7aState) : CoreOp → Armv7aState
  | .halt => (execHalt hwRegs s).1
  | .run => (execRun s).1
  | .reset => (execReset s).1
  | .resetAndHalt => (execResetAndHalt hwRegs s).1
  | .getStatus => execStatus s
  | .step => (execStep hwRegs s).1
  | .readCoreReg n => (execReadCoreReg hwRegs s n).1
  | .writeCoreReg n v => (execWriteCoreReg s n v).1
  | .enableBreakpoints _ => s

/-- Execute a sequence of driver operations. -/
def execOps (hwRegs : Nat → Nat) (s : Armv7aState) (ops : List CoreOp) :
    Armv7aState :=
  ops.foldl (execOp hwRegs) s

/-- Every slot of the register cache is empty. -/
def cacheEmpty (s : Armv7aState) : Prop :=
  ∀ e ∈ s.registerCache, e = none

/-- The invariant behind claim C9: whenever the target is not halted, the
register cache is empty. -/
def CacheInv (s : Armv7aState) : Prop :=
  s.hwHalted = false → cacheEmpty s

/-- The restriction of the amended claim C9: `write_core_reg` is only
invoked while the target is halted (all other operations are
unrestricted). -/
def writesOnlyWhileHalted (hwRegs : Nat → Nat) :
    Armv7aState → List CoreOp → Prop
  | _, [] => True
  | s, op :: rest =>
    (match op with
      | .writeCoreReg _ _ => s.hwHalted = true
      | _ => True) ∧
      writesOnlyWhileHalted hwRegs (execOp hwRegs s op) rest

/-- The driver state after `Armv7a::new` on a core that is running:
status Running, empty cache, ITR disabled. -/
def runningInitialState : Armv7aState :=
  { currentState := .running
    registerCache := List.replicate 17 none
    itrEnabled := false
    hwHalted := false
    hwHaltReason := .request }

theorem executeGate_none_hwHalted (s : Armv7aState) (h : executeGate s = none) :
    s.hwHalted = true := by
  cases hh : s.hwHalted
  · cases hcs : s.currentState.isHalted <;> simp [executeGate, hcs, hh] at h
  · rfl

theorem bindStep_fst {α β : Type} (r : Armv7aState × Except Armv7aError α)
    (f : Armv7aState → α → Armv7aState × Except Armv7aError β)
    (hf : ∀ s v, (f s v).1 = s) : (bindStep r f).1 = r.1 := by
  obtain ⟨s, rv⟩ := r
  cases rv with
  | error e => rfl
  | ok v => exact hf s v

theorem cacheInv_bindStep {α β : Type} (r : Armv7aState × Except Armv7aError α)
    (f : Armv7aState → α → Armv7aState × Except Armv7aError β)
    (hr : CacheInv r.1) (hf : ∀ v, CacheInv r.1 → CacheInv (f r.1 v).1) :
    CacheInv (bindStep r f).1 := by
  obtain ⟨s, rv⟩ := r
  cases rv with
  | error e => exact hr
  | ok v => exact hf v hr

theorem execReadCoreReg_hwHalted (hwRegs : Nat → Nat) (s : Armv7aState) (n : Nat) :
    (execReadCoreReg hwRegs s n).1.hwHalted = s.hwHalted := by
  unfold execReadCoreReg
  repeat' split
  all_goals rfl

theorem execReadCoreReg_cases (hwRegs : Nat → Nat) (s : Armv7aState) (n : Nat) :
    (execReadCoreReg hwRegs s n).1 = s ∨ s.hwHalted = true := by
  unfold execReadCoreReg
  cases hc : s.registerCache.getD n none with
  | some c => simp only [hc]; exact Or.inl (by trivial)
  | none =>
    simp only [hc]
    by_cases h14 : n ≤ 14
    · rw [if_pos h14]
      cases hg : executeGate s with
      | some e => simp only [hg]; exact Or.inl (by trivial)
      | none => exact Or.inr (executeGate_none_hwHalted s hg)
    · rw [if_neg h14]
      by_cases h156 : (n == 15 || n == 16) = true
      · simp only [h156, if_true]
        cases hg : executeGate s with
        | some e => simp only [hg]; exact Or.inl (by trivial)
        | none => exact Or.inr (executeGate_none_hwHalted s hg)
      · simp only [h156, if_false]
        exact Or.inl (by trivial)

theorem cacheInv_execReadCoreReg (hwRegs : Nat → Nat) (s : Armv7aState) (n : Nat)
    (hInv : CacheInv s) : CacheInv (execReadCoreReg hwRegs s n).1 := by
  rcases execReadCoreReg_cases hwRegs s n with h | h
  · rw [h]; exact hInv
  · intro hfalse
    rw [execReadCoreReg_hwHalted hwRegs s n, h] at hfalse
    cases hfalse

theorem cacheEmpty_of_replicate (s : Armv7aState)
    (h : s.registerCache = List.replicate 17 none) : cacheEmpty s := by
  intro e he
  rw [h] at he
  exact List.eq_of_mem_replicate he

theorem execWriteback_spec (s : Armv7aState) :
    (∃ e, execWriteback s = (s, .error e)) ∨
      ((execWriteback s).1.registerCache = List.replicate 17 none ∧
        (execWriteback s).2 = .ok ()) := by
  unfold execWriteback
  by_cases hd : hasDirtyEntry s = true
  · simp only [hd, if_true]
    cases hg : executeGate s with
    | some e => simp only [hg]; exact Or.inl ⟨e, by trivial⟩
    | none => simp only [hg]; exact Or.inr ⟨by trivial, by trivial⟩
  · simp only [hd, if_false]
    exact Or.inr ⟨by trivial, by trivial⟩

theorem cacheInv_execRun (s : Armv7aState) (hInv : CacheInv s) :
    CacheInv (execRun s).1 := by
  unfold execRun
  rcases execWriteback_spec s with ⟨e, heq⟩ | ⟨hc, ho⟩
  · rw [heq]
    exact hInv
  · have hpair : execWriteback s = ((execWriteback s).1, .ok ()) := by
      rw [← ho]
    rw [hpair]
    intro _ e he
    exact cacheEmpty_of_replicate _ hc e he

theorem cacheInv_execHalt (hwRegs : Nat → Nat) (s : Armv7aState) :
    CacheInv (execHalt hwRegs s).1 := by
  intro hfalse
  exfalso
  have h1 : (execHalt hwRegs s).1.hwHalted = true := by
    unfold execHalt
    rw [bindStep_fst _ _ (fun _ _ => rfl), execReadCoreReg_hwHalted]
    rfl
  rw [h1] at hfalse
  cases hfalse

theorem cacheInv_execResetAndHalt (hwRegs : Nat → Nat) (s : Armv7aState) :
    CacheInv (execResetAndHalt hwRegs s).1 := by
  intro hfalse
  exfalso
  have h1 : (execResetAndHalt hwRegs s).1.hwHalted = true := by
    unfold execResetAndHalt
    rw [bindStep_fst _ _ (fun _ _ => rfl), execReadCoreReg_hwHalted]
    rfl
  rw [h1] at hfalse
  cases hfalse

theorem cacheInv_execStep (hwRegs : Nat → Nat) (s : Armv7aState)
    (hInv : CacheInv s) : CacheInv (execStep hwRegs s).1 := by
  unfold execStep
  apply cacheInv_bindStep _ _ (cacheInv_execReadCoreReg hwRegs s 15 hInv)
  intro v hInv1
  apply cacheInv_bindStep _ _ (cacheInv_execRun _ hInv1)
  intro u hInv2
  by_cases hh : ((execRun (execReadCoreReg hwRegs s 15).1).1).hwHalted = true
  · simp only [hh, if_true]
    apply cacheInv_bindStep _ _ (cacheInv_execReadCoreReg hwRegs _ 15 hInv2)
    intro _ h
    exact h
  · simp only [hh, if_false]
    exact hInv2

theorem cacheInv_execOp (hwRegs : Nat → Nat) (s : Armv7aState) (op : CoreOp)
    (hInv : CacheInv s)
    (hop : match op with
      | .writeCoreReg _ _ => s.hwHalted = true
      | _ => True) :
    CacheInv (execOp hwRegs s op) := by
  cases op with
  | halt => exact cacheInv_execHalt hwRegs s
  | run => exact cacheInv_execRun s hInv
  | reset =>
    intro _
    exact cacheEmpty_of_replicate _ rfl
  | resetAndHalt => exact cacheInv_execResetAndHalt hwRegs s
  | getStatus =>
    intro hfalse e he
    exact hInv hfalse e he
  | step => exact cacheInv_execStep hwRegs s hInv
  | readCoreReg n => exact cacheInv_execReadCoreReg hwRegs s n hInv
  | writeCoreReg n v =>
    simp only [execOp, execWriteCoreReg]
    split
    · exact hInv
    · intro hfalse
      simp only at hop
      simp [hop] at hfalse
  | enableBreakpoints b => exact hInv

theorem cacheInv_execOps (hwRegs : Nat → Nat) :
    ∀ (ops : List CoreOp) (s : Armv7aState), CacheInv s →
      writesOnlyWhileHalted hwRegs s ops → CacheInv (execOps hwRegs s ops) := by
  intro ops
  induction ops with
  | nil => intro s hInv _; exact hInv
  | cons op rest ih =>
    intro s hInv hW
    exact ih (execOp hwRegs s op)
      (cacheInv_execOp hwRegs s op hInv hW.1) hW.2

/-- C9 counterexample: starting from the state `Armv7a::new` establishes on
a running core, the operation sequence `write_core_reg(0, 5); status()`
ends with `status()` returning Running while cache slot 0 holds a cached
entry — `write_core_reg` stores into the cache without requiring a halted
core. -/
theorem status_running_with_cached_register :
    (execOps (fun _ => 0) runningInitialState
        [.writeCoreReg 0 5, .getStatus]).currentState = .running ∧
      statusResult (execOps (fun _ => 0) runningInitialState
        [.writeCoreReg 0 5, .getStatus]) = .running ∧
      (execOps (fun _ => 0) runningInitialState
        [.writeCoreReg 0 5, .getStatus]).registerCache.getD 0 none
        = some (5, true) := by
  refine ⟨by decide, by decide, by decide⟩

/-- C9 (amended): for every sequence of ARMv7-A core-driver operations in
which `write_core_reg` is only invoked while the core is halted, whenever
`status()` has just returned Running the register cache contains no cached
entries (every slot is `None`).  Without that restriction the claim fails,
because `write_core_reg` populates the cache without checking that the
core is halted. -/
theorem armv7a_cache_empty_on_running_status (hwRegs : Nat → Nat)
    (s0 : Armv7aState) (ops : List CoreOp) (hInv : CacheInv s0)
    (hW : writesOnlyWhileHalted hwRegs s0 ops)
    (hrun : (execOp hwRegs (execOps hwRegs s0 ops) .getStatus).currentState
      = .running) :
    cacheEmpty (execOp hwRegs (execOps hwRegs s0 ops) .getStatus) := by
  have hInvF : CacheInv (execOps hwRegs s0 ops) :=
    cacheInv_execOps hwRegs ops s0 hInv hW
  have hhw : (execOps hwRegs s0 ops).hwHalted = false := by
    by_contra hc
    have hc' : (execOps hwRegs s0 ops).hwHalted = true := by
      cases h : (execOps hwRegs s0 ops).hwHalted
      · exact absurd h hc
      · rfl
    simp [execOp, execStatus, statusResult, hc'] at hrun
  intro e he
  exact hInvF hhw e he

/-- Witness for C9 (amended) at the empty operation sequence from the
running initial state. -/
theorem armv7a_cache_empty_on_running_status_witness :
    cacheEmpty (execOp (fun _ => 0)
      (execOps (fun _ => 0) runningInitialState []) .getStatus) :=
  armv7a_cache_empty_on_running_status (fun _ => 0) runningInitialState []
    (by intro _ e he; exact List.eq_of_mem_replicate he) trivial (by decide)

/-- C10: on ARMv7-A, `enable_breakpoints` performs no target access and
returns Ok for either argument (leaving the driver state unchanged), and
`hw_breakpoints_enabled` always returns true: hardware breakpoints cannot
be globally disabled through this driver. -/
theorem armv7a_breakpoints_always_enabled :
    (∀ b, enableBreakpointsV7a b = ([], .ok ())) ∧
      hwBreakpointsEnabledV7a = true ∧
      (∀ (hwRegs : Nat → Nat) (s : Armv7aState) (b : Bool),
        execOp hwRegs s (.enableBreakpoints b) = s) :=
  ⟨fun _ => rfl, rfl, fun _ _ _ => rfl⟩

end ProbeRs
